import Mathlib

/-!
Shallow embedding of `sponsorsme` (src/src/index.ts and src/src/utils.ts):
a GitHub-sponsors lookup client with a login-keyed cache and cursor-based
pagination over the viewer's sponsorships.

The transport (octokit GraphQL) is modelled as a list of pages the server
returns for successive fetches: each fetch consumes the next page of the
list and reports that page's `pageInfo` (hasNextPage, endCursor).  The
client state (`cached`, `cursor`, `hasNextPage`) is passed explicitly, and
`find` additionally returns the number of transport calls it issued.
-/

namespace Sponsorsme

/-- Tier data of a sponsorship (type `SponsorshipTier` in the source). -/
structure SponsorshipTier where
  id : String
  createdAt : String
  name : String
  description : String
  monthlyPriceInCents : Int
deriving Repr, DecidableEq

/-- Sponsor data of a sponsorship (type `SponsorshipSponsor` in the source);
`email` is optional. -/
structure SponsorshipSponsor where
  login : String
  email : Option String
deriving Repr, DecidableEq

/-- Decoded sponsorship record (type `Sponsorship` in the source). -/
structure Sponsorship where
  id : String
  createdAt : String
  sponsor : SponsorshipSponsor
  public : Bool
  tier : SponsorshipTier
deriving Repr, DecidableEq

/-- Sponsor entity of a response edge.  The GraphQL union (`... on User` /
`... on Organization`) only yields a `login` for those two variants, so
`login` is modelled optional; the source guards for its absence. -/
structure SponsorEntity where
  typename : String
  login : Option String
  userEmail : Option String
  orgEmail : Option String
deriving Repr, DecidableEq

/-- Node of a response edge (field `node` of `QueryResultEdge`). -/
structure EdgeNode where
  id : String
  createdAt : String
  privacyLevel : String
  tier : SponsorshipTier
  sponsorEntity : Option SponsorEntity
deriving Repr, DecidableEq

/-- One edge of a response page (type `QueryResultEdge` in the source). -/
structure QueryResultEdge where
  cursor : String
  node : EdgeNode
deriving Repr, DecidableEq

/-- Pagination info reported by a fetched page (`pageInfo` in the source). -/
structure PageInfo where
  hasNextPage : Bool
  endCursor : String
deriving Repr, DecidableEq

/-- One page returned by the transport: its pagination info and its edges
(`result.viewer.sponsorshipsAsMaintainer` in the source). -/
structure Page where
  pageInfo : PageInfo
  edges : List QueryResultEdge
deriving Repr, DecidableEq

/-- Mutable state of a `Sponsors` client instance: the login-keyed cache
(association list, most recent insertion first, mirroring JS object
overwrite-on-assign), the pagination cursor and the has-next-page flag. -/
structure SponsorsState where
  cached : List (String × Sponsorship)
  cursor : Option String
  hasNextPage : Bool
deriving Repr, DecidableEq

/-- Initial state of a freshly constructed client: empty cache, `null`
cursor, `hasNextPage = true` (field initializers in the source). -/
def initState : SponsorsState :=
  { cached := [], cursor := none, hasNextPage := true }

/-- Client options after construction (`SponsorsOptions` in the source,
with `cache` optional). -/
structure SponsorsOptions where
  cache : Option Bool
  token : String

/-- Embeds `withdefault` from src/src/utils.ts: returns the fallback if the
given value is null or undefined. -/
def withdefault (fallback : α) (value : Option α) : α :=
  match value with
  | none => fallback
  | some v => v

/-- Resolved `cache` option computed by the constructor:
`withdefault(true, opts.cache)`. -/
def resolvedCache (opts : SponsorsOptions) : Bool :=
  withdefault true opts.cache

/-- Embeds the truthiness-based `||` of the email line
`sponsorEntity?.orgEmail || sponsorEntity?.userEmail`: a present but empty
string is falsy in JS and falls through to the right operand. -/
def jsOrString (a b : Option String) : Option String :=
  match a with
  | some s => if s = "" then b else some s
  | none => b

/-- Embeds `Sponsors.sponsorshipFromEdge`: returns `none` when the sponsor
entity is missing or carries no login, otherwise decodes the edge into a
`Sponsorship` (public iff privacyLevel is PUBLIC, email from the org-level
field `||` the user-level field, tier copied verbatim). -/
def sponsorshipFromEdge (edge : QueryResultEdge) : Option Sponsorship :=
  match edge.node.sponsorEntity with
  | none => none
  | some entity =>
    match entity.login with
    | none => none
    | some sponsor =>
      some
        { id := edge.node.id
          createdAt := edge.node.createdAt
          sponsor :=
            { login := sponsor
              email := jsOrString entity.orgEmail entity.userEmail }
          public := edge.node.privacyLevel == "PUBLIC"
          tier :=
            { id := edge.node.tier.id
              createdAt := edge.node.tier.createdAt
              name := edge.node.tier.name
              description := edge.node.tier.description
              monthlyPriceInCents := edge.node.tier.monthlyPriceInCents } }

/-- Cache write `this.cached[sponsorship.sponsor.login] = sponsorship`:
prepend, so that lookup sees the most recent assignment. -/
def cacheInsert (c : List (String × Sponsorship)) (k : String)
    (v : Sponsorship) : List (String × Sponsorship) :=
  (k, v) :: c

/-- Folds the decoded records of one page into the cache: every
successfully decoded record is inserted keyed by its sponsor login
(the `if (sponsorship !== null)` body inside `edges.map`). -/
def cachePopulate (c : List (String × Sponsorship))
    (l : List (Option Sponsorship)) : List (String × Sponsorship) :=
  l.foldl
    (fun acc s? =>
      match s? with
      | some s => cacheInsert acc s.sponsor.login s
      | none => acc) c

/-- Processes one fetched page in `find`'s loop body: first updates the
pagination state unconditionally from the page's `pageInfo`, then decodes
every edge and inserts each decoded record into the cache.  Returns the
updated state and the decoded (Sponsorship-or-null) list. -/
def processPage (st : SponsorsState) (page : Page) :
    SponsorsState × List (Option Sponsorship) :=
  let decoded := page.edges.map sponsorshipFromEdge
  ({ cached := cachePopulate st.cached decoded
     cursor := some page.pageInfo.endCursor
     hasNextPage := page.pageInfo.hasNextPage }, decoded)

/-- Predicate of the page scan `sponsorships.find((s) => s?.sponsor.login
=== login)`: a null record never matches (optional chaining yields
undefined, which is not equal to a string login). -/
def matchesLogin (login : String) (s? : Option Sponsorship) : Bool :=
  match s? with
  | some s => s.sponsor.login == login
  | none => false

/-- Embeds the `while (this.hasNextPage)` pagination loop of
`Sponsors.find`.  Each iteration fetches the next page of the source list,
updates the pagination state, caches the decoded records and scans them
for the target login, returning it immediately when found.  Returns the
result, the final state, and the number of transport calls issued. -/
def findLoop (login : String) :
    SponsorsState → List Page → Option Sponsorship × SponsorsState × Nat
  | st, [] => (none, st, 0)
  | st, page :: rest =>
    if st.hasNextPage then
      let pr := processPage st page
      match pr.2.find? (matchesLogin login) with
      | some (some s) => (some s, pr.1, 1)
      | _ =>
        let r := findLoop login pr.1 rest
        (r.1, r.2.1, r.2.2 + 1)
    else (none, st, 0)

/-- Embeds the private engine `Sponsors.find`: returns the cached record
when present and caching is enabled (zero transport calls), otherwise runs
the pagination loop from the current state. -/
def find (login : String) (cacheOpt : Bool) (st : SponsorsState)
    (pages : List Page) : Option Sponsorship × SponsorsState × Nat :=
  match st.cached.lookup login with
  | some s => if cacheOpt then (some s, st, 0) else findLoop login st pages
  | none => findLoop login st pages

/-- Embeds `Sponsors.getInfo`: delegates to `find`. -/
def getInfo (login : String) (cacheOpt : Bool) (st : SponsorsState)
    (pages : List Page) : Option Sponsorship × SponsorsState × Nat :=
  find login cacheOpt st pages

/-- Embeds `Sponsors.isSponsor`: true iff `find` returns a non-null
record; state and transport-call count are those of the inner `find`. -/
def isSponsor (login : String) (cacheOpt : Bool) (st : SponsorsState)
    (pages : List Page) : Bool × SponsorsState × Nat :=
  let r := find login cacheOpt st pages
  (r.1.isSome, r.2.1, r.2.2)

/-- Embeds `Sponsors.flush`: clears the cache, resets the cursor to null
and the has-next-page flag to true. -/
def flush (_st : SponsorsState) : SponsorsState :=
  { cached := [], cursor := none, hasNextPage := true }

/-- Whether a page contains a decoded record with the given login. -/
def pageHasLogin (page : Page) (login : String) : Bool :=
  (page.edges.map sponsorshipFromEdge).any (matchesLogin login)

/-- Cache-key well-formedness: every login key present in the cache maps to
a record whose sponsor login is that key. -/
def CacheOk (c : List (String × Sponsorship)) : Prop :=
  ∀ k s, c.lookup k = some s → s.sponsor.login = k

/-! ### Helper lemmas -/

theorem findLoop_of_not_hasNextPage (login : String) (st : SponsorsState)
    (pages : List Page) (h : st.hasNextPage = false) :
    findLoop login st pages = (none, st, 0) := by
  cases pages with
  | nil => rfl
  | cons p rest => simp [findLoop, h]

theorem find_of_cache_miss (login : String) (cacheOpt : Bool)
    (st : SponsorsState) (pages : List Page)
    (h : st.cached.lookup login = none) :
    find login cacheOpt st pages = findLoop login st pages := by
  simp [find, h]

theorem find_of_cache_disabled (login : String) (st : SponsorsState)
    (pages : List Page) :
    find login false st pages = findLoop login st pages := by
  unfold find
  cases st.cached.lookup login <;> simp

theorem findLoop_zero_count (login : String) (st : SponsorsState)
    (pages : List Page) (h : (findLoop login st pages).2.2 = 0) :
    findLoop login st pages = (none, st, 0) := by
  cases pages with
  | nil => rfl
  | cons p rest =>
    by_cases hn : st.hasNextPage
    · exfalso
      unfold findLoop at h
      simp only [hn, if_true] at h
      rcases hf : ((processPage st p).2.find? (matchesLogin login)) with _ | s?
      · simp [hf] at h
      · rcases s? with _ | s <;> simp [hf] at h
    · exact findLoop_of_not_hasNextPage login st _ (by simpa using hn)

theorem lookup_cachePopulate_mono (l : List (Option Sponsorship)) :
    ∀ (c : List (String × Sponsorship)) (k : String),
    ((c.lookup k).isSome = true) →
    (((cachePopulate c l).lookup k).isSome = true) := by
  induction l with
  | nil => intro c k h; exact h
  | cons x rest ih =>
    intro c k h
    cases x with
    | none => exact ih c k h
    | some s =>
      refine ih _ k ?_
      cases hb : k == s.sponsor.login <;>
        simp [cacheInsert, List.lookup_cons, hb, h]

theorem lookup_cachePopulate_of_mem (l : List (Option Sponsorship))
    (s : Sponsorship) :
    ∀ (c : List (String × Sponsorship)), some s ∈ l →
    (((cachePopulate c l).lookup s.sponsor.login).isSome = true) := by
  induction l with
  | nil => intro c h; cases h
  | cons x rest ih =>
    intro c h
    rcases List.mem_cons.mp h with heq | hmem
    · subst heq
      refine lookup_cachePopulate_mono rest _ _ ?_
      simp [cacheInsert, List.lookup_cons]
    · cases x with
      | none => exact ih c hmem
      | some s₂ => exact ih _ hmem

theorem cacheOk_nil : CacheOk [] := by
  intro k s h
  simp [List.lookup] at h

theorem cacheOk_insert (c : List (String × Sponsorship)) (s : Sponsorship)
    (h : CacheOk c) : CacheOk (cacheInsert c s.sponsor.login s) := by
  intro k s₂ hk
  cases hb : k == s.sponsor.login with
  | true =>
    simp only [cacheInsert, List.lookup_cons, hb] at hk
    cases hk
    exact (eq_of_beq hb).symm
  | false =>
    simp only [cacheInsert, List.lookup_cons, hb] at hk
    exact h k s₂ hk

theorem cacheOk_cachePopulate (l : List (Option Sponsorship)) :
    ∀ (c : List (String × Sponsorship)), CacheOk c →
    CacheOk (cachePopulate c l) := by
  induction l with
  | nil => intro c h; exact h
  | cons x rest ih =>
    intro c h
    cases x with
    | none => exact ih c h
    | some s => exact ih _ (cacheOk_insert c s h)

theorem cacheOk_processPage (st : SponsorsState) (page : Page)
    (h : CacheOk st.cached) : CacheOk ((processPage st page).1).cached := by
  exact cacheOk_cachePopulate _ st.cached h

theorem cacheOk_findLoop (login : String) (pages : List Page) :
    ∀ (st : SponsorsState), CacheOk st.cached →
    CacheOk ((findLoop login st pages).2.1).cached := by
  induction pages with
  | nil => intro st h; exact h
  | cons p rest ih =>
    intro st h
    by_cases hn : st.hasNextPage
    · unfold findLoop
      simp only [hn, if_true]
      rcases hf : ((processPage st p).2.find? (matchesLogin login)) with _ | s?
      · simp only [hf]
        exact ih _ (cacheOk_processPage st p h)
      · rcases s? with _ | s
        · simp only [hf]
          exact ih _ (cacheOk_processPage st p h)
        · simp only [hf]
          exact cacheOk_processPage st p h
    · rw [findLoop_of_not_hasNextPage login st _ (by simpa using hn)]
      exact h

theorem findLoop_cons_found (login : String) (st : SponsorsState) (p : Page)
    (rest : List Page) (s : Sponsorship) (hn : st.hasNextPage = true)
    (hf : (processPage st p).2.find? (matchesLogin login) = some (some s)) :
    findLoop login st (p :: rest) = (some s, (processPage st p).1, 1) := by
  simp [findLoop, hn, hf]

theorem findLoop_cons_not_found (login : String) (st : SponsorsState)
    (p : Page) (rest : List Page) (hn : st.hasNextPage = true)
    (hf : (processPage st p).2.find? (matchesLogin login) = none) :
    findLoop login st (p :: rest) =
      ((findLoop login (processPage st p).1 rest).1,
       (findLoop login (processPage st p).1 rest).2.1,
       (findLoop login (processPage st p).1 rest).2.2 + 1) := by
  simp [findLoop, hn, hf]

theorem find?_matchesLogin_of_pageHasLogin (login : String)
    (st : SponsorsState) (p : Page) (hp : pageHasLogin p login = true) :
    ∃ s, (processPage st p).2.find? (matchesLogin login) = some (some s) ∧
      s.sponsor.login = login := by
  have hany : ((processPage st p).2).any (matchesLogin login) = true := hp
  obtain ⟨x, hmem, hx⟩ := List.any_eq_true.mp hany
  have hsome : ((processPage st p).2.find? (matchesLogin login)).isSome :=
    List.find?_isSome.mpr ⟨x, hmem, hx⟩
  obtain ⟨y, hy⟩ := Option.isSome_iff_exists.mp hsome
  have hpy : matchesLogin login y = true := List.find?_some hy
  cases y with
  | none => simp [matchesLogin] at hpy
  | some s =>
    refine ⟨s, hy, ?_⟩
    simpa [matchesLogin] using hpy

theorem find?_matchesLogin_of_not_pageHasLogin (login : String)
    (st : SponsorsState) (p : Page) (hp : pageHasLogin p login = false) :
    (processPage st p).2.find? (matchesLogin login) = none := by
  rw [List.find?_eq_none]
  intro x hx hpx
  have hany : ((processPage st p).2).any (matchesLogin login) = true :=
    List.any_eq_true.mpr ⟨x, hx, hpx⟩
  have : pageHasLogin p login = true := hany
  rw [hp] at this
  exact Bool.false_ne_true this

theorem cacheOk_find (login : String) (cacheOpt : Bool) (st : SponsorsState)
    (pages : List Page) (h : CacheOk st.cached) :
    CacheOk ((find login cacheOpt st pages).2.1).cached := by
  unfold find
  rcases hl : st.cached.lookup login with _ | s
  · exact cacheOk_findLoop login pages st h
  · cases cacheOpt
    · simp only [if_false]
      exact cacheOk_findLoop login pages st h
    · simpa using h

theorem findLoop_finds_first (login : String) (p : Page) (post : List Page)
    (hp : pageHasLogin p login = true) :
    ∀ (pre : List Page) (st : SponsorsState), st.hasNextPage = true →
    (∀ q ∈ pre, pageHasLogin q login = false ∧ q.pageInfo.hasNextPage = true) →
    ∃ s st', findLoop login st (pre ++ p :: post) =
        (some s, st', pre.length + 1) ∧ s.sponsor.login = login := by
  intro pre
  induction pre with
  | nil =>
    intro st hn _
    obtain ⟨s, hf, hs⟩ := find?_matchesLogin_of_pageHasLogin login st p hp
    refine ⟨s, (processPage st p).1, ?_, hs⟩
    rw [List.nil_append, findLoop_cons_found login st p post s hn hf]
    simp
  | cons q pre ih =>
    intro st hn hpre
    have hq := hpre q (List.mem_cons_self q pre)
    have hf := find?_matchesLogin_of_not_pageHasLogin login st q hq.1
    have hn2 : ((processPage st q).1).hasNextPage = true := hq.2
    obtain ⟨s, st', heq, hlogin⟩ :=
      ih ((processPage st q).1) hn2 (fun r hr => hpre r (List.mem_cons_of_mem q hr))
    refine ⟨s, st', ?_, hlogin⟩
    rw [List.cons_append, findLoop_cons_not_found login st q _ hn hf, heq]
    simp

theorem findLoop_exhausts (login : String) (extra : List Page) :
    ∀ (pages : List Page) (st : SponsorsState), st.hasNextPage = true →
    pages ≠ [] →
    (∀ q ∈ pages, pageHasLogin q login = false) →
    (∀ q ∈ pages.dropLast, q.pageInfo.hasNextPage = true) →
    (∀ q, pages.getLast? = some q → q.pageInfo.hasNextPage = false) →
    ∃ st', findLoop login st (pages ++ extra) = (none, st', pages.length) ∧
      st'.hasNextPage = false := by
  intro pages
  induction pages with
  | nil => intro st _ hne; exact absurd rfl hne
  | cons p rest ih =>
    intro st hn _ hmiss hchain hlast
    have hf := find?_matchesLogin_of_not_pageHasLogin login st p
      (hmiss p (List.mem_cons_self p rest))
    cases rest with
    | nil =>
      have hplast : p.pageInfo.hasNextPage = false :=
        hlast p (List.getLast?_singleton p)
      refine ⟨(processPage st p).1, ?_, hplast⟩
      rw [List.cons_append, List.nil_append,
        findLoop_cons_not_found login st p extra hn hf,
        findLoop_of_not_hasNextPage login _ extra hplast]
      simp
    | cons q rest2 =>
      have hp_true : p.pageInfo.hasNextPage = true := by
        refine hchain p ?_
        rw [List.dropLast_cons₂]
        exact List.mem_cons_self p _
      obtain ⟨st', heq, hfalse⟩ := ih ((processPage st p).1) hp_true
        (by simp)
        (fun r hr => hmiss r (List.mem_cons_of_mem p hr))
        (fun r hr => by
          refine hchain r ?_
          rw [List.dropLast_cons₂]
          exact List.mem_cons_of_mem p hr)
        (fun r hr => hlast r (by rw [List.getLast?_cons_cons]; exact hr))
      refine ⟨st', ?_, hfalse⟩
      rw [List.cons_append, findLoop_cons_not_found login st p _ hn hf, heq]
      simp

theorem findLoop_count_state (login : String) :
    ∀ (pages : List Page) (st : SponsorsState) (n : Nat),
    (findLoop login st pages).2.2 = n → 0 < n →
    ∃ h : n - 1 < pages.length,
      ((findLoop login st pages).2.1).hasNextPage =
        (pages.get ⟨n - 1, h⟩).pageInfo.hasNextPage ∧
      ((findLoop login st pages).2.1).cursor =
        some (pages.get ⟨n - 1, h⟩).pageInfo.endCursor := by
  intro pages
  induction pages with
  | nil =>
    intro st n hn h0
    simp [findLoop] at hn
    omega
  | cons p rest ih =>
    intro st n hn h0
    by_cases hnext : st.hasNextPage
    · rcases hf : ((processPage st p).2.find? (matchesLogin login)) with _ | s?
      · rw [findLoop_cons_not_found login st p rest hnext hf] at hn ⊢
        rcases hm : (findLoop login ((processPage st p).1) rest).2.2 with _ | m
        · have hzero := findLoop_zero_count login ((processPage st p).1) rest hm
          rw [hzero]
          simp only [hm] at hn
          have hn1 : n = 1 := by omega
          subst hn1
          exact ⟨by simp, rfl, rfl⟩
        · obtain ⟨hlt, h1, h2⟩ := ih ((processPage st p).1) (m + 1) hm (by omega)
          simp only [hm] at hn
          have hn2 : n = m + 2 := by omega
          subst hn2
          have hlt2 : m + 2 - 1 < (p :: rest).length := by
            simp only [List.length_cons]
            omega
          refine ⟨hlt2, ?_, ?_⟩
          · rw [show (p :: rest).get ⟨m + 2 - 1, hlt2⟩ = rest.get ⟨m, hlt⟩ from ?_]
            · exact h1
            · exact List.get_cons_succ
          · rw [show (p :: rest).get ⟨m + 2 - 1, hlt2⟩ = rest.get ⟨m, hlt⟩ from ?_]
            · exact h2
            · exact List.get_cons_succ
      · rcases s? with _ | s
        · exact absurd (List.find?_some hf) (by simp [matchesLogin])
        · rw [findLoop_cons_found login st p rest s hnext hf] at hn ⊢
          have hn1 : n = 1 := by simpa using hn.symm
          subst hn1
          exact ⟨by simp, rfl, rfl⟩
    · rw [findLoop_of_not_hasNextPage login st _ (by simpa using hnext)] at hn
      simp at hn
      omega

/-! ### Concrete data used by the witnesses -/

/-- Login of a result as an option, for stating results compactly. -/
def resultLogin (r : Option Sponsorship × SponsorsState × Nat) :
    Option String :=
  r.1.map fun s => s.sponsor.login

/-- Concrete tier used by the witness scenarios. -/
def demoTier : SponsorshipTier :=
  { id := "tier0", createdAt := "2021-01-01", name := "Bronze",
    description := "basic", monthlyPriceInCents := 300 }

/-- Concrete edge with a User sponsor entity carrying the given login. -/
def demoEdge (login : String) : QueryResultEdge :=
  { cursor := "edge-" ++ login,
    node :=
      { id := "n-" ++ login, createdAt := "2021-03-03",
        privacyLevel := "PUBLIC", tier := demoTier,
        sponsorEntity := some
          { typename := "User", login := some login,
            userEmail := some (login ++ "@example.com"), orgEmail := none } } }

/-- First demo page: contains alice, reports a further page. -/
def demoPage1 : Page :=
  { pageInfo := { hasNextPage := true, endCursor := "cursor-1" },
    edges := [demoEdge "alice"] }

/-- Second demo page: contains jure, reports no further page. -/
def demoPage2 : Page :=
  { pageInfo := { hasNextPage := false, endCursor := "cursor-2" },
    edges := [demoEdge "jure"] }

/-- Two-page demo source, mirroring the end-to-end scenario of the spec. -/
def demoPages : List Page := [demoPage1, demoPage2]

/-- Decoded record of `demoEdge "jure"`. -/
def demoRec : Sponsorship :=
  { id := "n-jure", createdAt := "2021-03-03",
    sponsor := { login := "jure", email := some "jure@example.com" },
    public := true, tier := demoTier }

/-- Client state after an exhausting traversal: jure cached, no next page. -/
def demoState : SponsorsState :=
  { cached := [("jure", demoRec)], cursor := some "cursor-2",
    hasNextPage := false }

/-- Concrete edge whose sponsor entity carries no login. -/
def droppedEdge : QueryResultEdge :=
  { cursor := "edge-x",
    node :=
      { id := "n-x", createdAt := "2021-04-04", privacyLevel := "PRIVATE",
        tier := demoTier,
        sponsorEntity := some
          { typename := "Bot", login := none,
            userEmail := none, orgEmail := none } } }

/-- Sponsor entity with an empty organization email and a user email. -/
def cexEntity : SponsorEntity :=
  { typename := "Organization", login := some "acme",
    userEmail := some "user@acme.io", orgEmail := some "" }

/-- Edge carrying `cexEntity`. -/
def cexEdge : QueryResultEdge :=
  { cursor := "edge-acme",
    node :=
      { id := "n-acme", createdAt := "2021-05-05", privacyLevel := "PUBLIC",
        tier := demoTier, sponsorEntity := some cexEntity } }

/-- Decoded email of an edge, for stating the email claims compactly. -/
def decodedEmail (e : QueryResultEdge) : Option (Option String) :=
  (sponsorshipFromEdge e).map fun s => s.sponsor.email

/-- Sponsor entity with both emails present and the org email non-empty. -/
def wEntity : SponsorEntity :=
  { typename := "Organization", login := some "acme",
    userEmail := some "user@acme.io", orgEmail := some "boss@acme.io" }

/-- Edge carrying `wEntity`. -/
def wEdge : QueryResultEdge :=
  { cursor := "edge-acme2",
    node :=
      { id := "n-acme2", createdAt := "2021-05-05", privacyLevel := "PUBLIC",
        tier := demoTier, sponsorEntity := some wEntity } }

/-- Decoded record of `wEdge`. -/
def wDecoded : Sponsorship :=
  { id := "n-acme2", createdAt := "2021-05-05",
    sponsor := { login := "acme", email := some "boss@acme.io" },
    public := true, tier := demoTier }

/-! ### Claim theorems -/

/-- Claim C1: for a login that appears as a successfully decoded record on
some page of the source (the first such page, all earlier pages reporting
further pages exist), `getInfo` from a fresh client state returns a
Sponsorship whose `sponsor.login` equals the queried login exactly, and it
returns immediately upon finding it: exactly one transport call per page
up to and including the page where the login is found, no further pages
being fetched. -/
theorem getInfo_finds_present_login (login : String) (cacheOpt : Bool)
    (pre post : List Page) (p : Page)
    (hpre : ∀ q ∈ pre,
      pageHasLogin q login = false ∧ q.pageInfo.hasNextPage = true)
    (hp : pageHasLogin p login = true) :
    ∃ s st', getInfo login cacheOpt initState (pre ++ p :: post) =
        (some s, st', pre.length + 1) ∧ s.sponsor.login = login := by
  rw [getInfo, find_of_cache_miss login cacheOpt initState _ rfl]
  exact findLoop_finds_first login p post hp pre initState rfl hpre

/-- Witness for C1, on the two-page demo source: looking up jure fetches
both pages and returns jure's record. -/
theorem getInfo_finds_present_login_witness :
    resultLogin (getInfo "jure" true initState ([demoPage1] ++ demoPage2 :: [])) = some "jure" ∧
    (getInfo "jure" true initState ([demoPage1] ++ demoPage2 :: [])).2.2 = 2 := by
  obtain ⟨s, st', heq, hl⟩ := getInfo_finds_present_login "jure" true
    [demoPage1] [] demoPage2 (by decide) (by decide)
  rw [resultLogin, heq]
  simp [hl]

/-- Claim C2: for a login present on no page of a well-formed source (every
page but the last reports a further page; the last reports none),
`getInfo` from a fresh client state returns the absent value after
exhausting all pages — exactly one transport call per page — and the loop
terminates with the has-next-page flag false as reported by the last page,
fetching nothing beyond it (any `extra` pages the transport could serve
are never requested). -/
theorem getInfo_exhausts_pages (login : String) (cacheOpt : Bool)
    (pages extra : List Page)
    (hne : pages ≠ [])
    (hmiss : ∀ q ∈ pages, pageHasLogin q login = false)
    (hchain : ∀ q ∈ pages.dropLast, q.pageInfo.hasNextPage = true)
    (hlast : ∀ q, pages.getLast? = some q → q.pageInfo.hasNextPage = false) :
    ∃ st', getInfo login cacheOpt initState (pages ++ extra) =
        (none, st', pages.length) ∧ st'.hasNextPage = false := by
  rw [getInfo, find_of_cache_miss login cacheOpt initState _ rfl]
  exact findLoop_exhausts login extra pages initState rfl hne hmiss hchain hlast

/-- Witness for C2, on the two-page demo source: looking up a login the
source does not contain fetches both pages and returns none, even when the
transport could serve further pages. -/
theorem getInfo_exhausts_pages_witness :
    (getInfo "noone" true initState (demoPages ++ [demoPage1])).1 = none ∧
    (getInfo "noone" true initState (demoPages ++ [demoPage1])).2.2 = 2 := by
  obtain ⟨st', heq, hfalse⟩ := getInfo_exhausts_pages "noone" true demoPages
    [demoPage1] (by decide) (by decide) (by decide)
    (fun q hq => by
      have h := Option.some.inj hq
      subst h
      rfl)
  rw [heq]
  exact ⟨rfl, rfl⟩

/-- Claim C3: when caching is enabled and the queried login is present in
the cache, `getInfo` returns the cached record with zero transport calls
and an unchanged state; consequently a second `getInfo` for the same login
returns the identical record, again with zero transport calls. -/
theorem cache_hit_idempotent (login : String) (st : SponsorsState)
    (pages pages2 : List Page) (s : Sponsorship)
    (h : st.cached.lookup login = some s) :
    getInfo login true st pages = (some s, st, 0) ∧
    getInfo login true (getInfo login true st pages).2.1 pages2 =
      (some s, st, 0) := by
  have h1 : getInfo login true st pages = (some s, st, 0) := by
    simp [getInfo, find, h]
  refine ⟨h1, ?_⟩
  rw [h1]
  simp [getInfo, find, h]

/-- Witness for C3: with jure cached, both lookups return the cached
record and issue zero transport calls. -/
theorem cache_hit_idempotent_witness :
    getInfo "jure" true demoState demoPages = (some demoRec, demoState, 0) ∧
    getInfo "jure" true (getInfo "jure" true demoState demoPages).2.1 demoPages =
      (some demoRec, demoState, 0) :=
  cache_hit_idempotent "jure" demoState demoPages demoPages demoRec rfl

/-- Claim C4: whenever a `getInfo` call issued `n > 0` transport calls
(including calls that end by finding the target on the last fetched page),
the resulting has-next-page flag equals the flag reported by the `n`-th
(most recently) fetched page and the cursor equals that page's end
cursor. -/
theorem pagination_state_invariant (login : String) (cacheOpt : Bool)
    (st : SponsorsState) (pages : List Page) (n : Nat)
    (hn : (getInfo login cacheOpt st pages).2.2 = n) (h0 : 0 < n) :
    ∃ h : n - 1 < pages.length,
      ((getInfo login cacheOpt st pages).2.1).hasNextPage =
        (pages.get ⟨n - 1, h⟩).pageInfo.hasNextPage ∧
      ((getInfo login cacheOpt st pages).2.1).cursor =
        some (pages.get ⟨n - 1, h⟩).pageInfo.endCursor := by
  rw [getInfo] at hn ⊢
  rcases hl : st.cached.lookup login with _ | s
  · rw [find_of_cache_miss login cacheOpt st pages hl] at hn ⊢
    exact findLoop_count_state login pages st n hn h0
  · cases cacheOpt
    · rw [find_of_cache_disabled login st pages] at hn ⊢
      exact findLoop_count_state login pages st n hn h0
    · have hhit : find login true st pages = (some s, st, 0) := by
        simp [find, hl]
      rw [hhit] at hn
      simp at hn
      omega

/-- Witness for C4: a found-on-last-page lookup (jure, 2 fetches) leaves
the state mirroring the second demo page's pageInfo. -/
theorem pagination_state_invariant_witness :
    ((getInfo "jure" true initState demoPages).2.1).hasNextPage = false ∧
    ((getInfo "jure" true initState demoPages).2.1).cursor = some "cursor-2" := by
  obtain ⟨h, h1, h2⟩ := pagination_state_invariant "jure" true initState
    demoPages 2 (by decide) (by decide)
  refine ⟨?_, ?_⟩
  · rw [h1]; rfl
  · rw [h2]; rfl

/-- Claim C5: constructing with `cache: false` resolves the cache option
to false; with it, `find` skips the read-from-cache step entirely — every
call runs the pagination loop from the current state regardless of the
cache's contents — while every successfully decoded record of a processed
page is still inserted into the cache keyed by its sponsor login,
unconditionally. -/
theorem cache_disabled_behavior (login t : String) (st st2 : SponsorsState)
    (pages : List Page) (page : Page) (s : Sponsorship)
    (hs : some s ∈ (processPage st2 page).2) :
    resolvedCache { cache := some false, token := t } = false ∧
    find login false st pages = findLoop login st pages ∧
    (((processPage st2 page).1).cached.lookup s.sponsor.login).isSome = true := by
  refine ⟨rfl, find_of_cache_disabled login st pages, ?_⟩
  exact lookup_cachePopulate_of_mem _ s st2.cached hs

/-- Witness for C5: jure's decoded record on the second demo page ends up
in the cache even though the client state already held it. -/
theorem cache_disabled_behavior_witness :
    resolvedCache { cache := some false, token := "tkn" } = false ∧
    find "jure" false demoState demoPages = findLoop "jure" demoState demoPages ∧
    (((processPage demoState demoPage2).1).cached.lookup demoRec.sponsor.login).isSome = true := by
  exact cache_disabled_behavior "jure" "tkn" demoState demoState demoPages
    demoPage2 demoRec (by decide)

/-- Claim C6: an edge whose sponsor entity is absent or carries no login
decodes to none; such a record contributes nothing to the cache, never
matches the page scan, and does not abort the pagination loop — the loop
counts the page's fetch and proceeds to the remaining pages (total
function: no error surfaces to the caller). -/
theorem dropped_record_skipped (e : QueryResultEdge) (st : SponsorsState)
    (info : PageInfo) (login : String) (rest : List Page)
    (he : e.node.sponsorEntity = none ∨
      ∃ ent, e.node.sponsorEntity = some ent ∧ ent.login = none)
    (hn : st.hasNextPage = true) :
    sponsorshipFromEdge e = none ∧
    ((processPage st (Page.mk info [e])).1).cached = st.cached ∧
    findLoop login st (Page.mk info [e] :: rest) =
      ((findLoop login ((processPage st (Page.mk info [e])).1) rest).1,
       (findLoop login ((processPage st (Page.mk info [e])).1) rest).2.1,
       (findLoop login ((processPage st (Page.mk info [e])).1) rest).2.2 + 1) := by
  have hdec : sponsorshipFromEdge e = none := by
    rcases he with h | ⟨ent, hent, hlogin⟩
    · simp [sponsorshipFromEdge, h]
    · simp [sponsorshipFromEdge, hent, hlogin]
  refine ⟨hdec, ?_, ?_⟩
  · show cachePopulate st.cached ([e].map sponsorshipFromEdge) = st.cached
    simp [cachePopulate, hdec]
  · apply findLoop_cons_not_found login st _ rest hn
    show List.find? (matchesLogin login) ([e].map sponsorshipFromEdge) = none
    simp [hdec, matchesLogin]

/-- Witness for C6: the login-less `droppedEdge` decodes to none and
leaves the cache untouched while the loop moves on to the next page. -/
theorem dropped_record_skipped_witness :
    sponsorshipFromEdge droppedEdge = none ∧
    ((processPage initState (Page.mk demoPage1.pageInfo [droppedEdge])).1).cached =
      initState.cached := by
  have h := dropped_record_skipped droppedEdge initState demoPage1.pageInfo
    "jure" [demoPage2] (Or.inr ⟨_, rfl, rfl⟩) rfl
  exact ⟨h.1, h.2.1⟩

/-- Claim C7 (amended): when the organization-level email is present and
non-empty, the decoded email equals it; when the organization-level email
is absent or the empty string, the decoded email equals the user-level
field (so a present-but-empty organization email falls through, by JS
truthiness of the source's `||`); when neither field yields a value the
email is absent. -/
theorem email_precedence (e : QueryResultEdge) (ent : SponsorEntity)
    (s : Sponsorship) (hent : e.node.sponsorEntity = some ent)
    (hdec : sponsorshipFromEdge e = some s) :
    (∀ o, ent.orgEmail = some o → o ≠ "" → s.sponsor.email = some o) ∧
    ((ent.orgEmail = none ∨ ent.orgEmail = some "") →
      s.sponsor.email = ent.userEmail) ∧
    (ent.orgEmail = none → ent.userEmail = none → s.sponsor.email = none) := by
  rcases hl : ent.login with _ | l
  · simp [sponsorshipFromEdge, hent, hl] at hdec
  · simp only [sponsorshipFromEdge, hent, hl] at hdec
    have hemail : s.sponsor.email = jsOrString ent.orgEmail ent.userEmail := by
      rw [← Option.some.inj hdec]
    refine ⟨?_, ?_, ?_⟩
    · intro o ho hne
      rw [hemail, ho, jsOrString, if_neg hne]
    · rintro (h | h) <;> rw [hemail, h] <;> simp [jsOrString]
    · intro h1 h2
      rw [hemail, h1, h2]
      rfl

/-- Witness for C7: with both emails present and the organization email
non-empty, the decoded email is the organization email. -/
theorem email_precedence_witness :
    wDecoded.sponsor.email = some "boss@acme.io" :=
  (email_precedence wEdge wEntity wDecoded rfl (by decide)).1
    "boss@acme.io" rfl (by decide)

/-- Counterexample to C7 as stated: on `cexEdge` both email fields are
present, yet the decoded email is the user-level email, not the (empty)
organization-level one. -/
theorem email_precedence_counterexample :
    cexEdge.node.sponsorEntity = some cexEntity ∧
    cexEntity.orgEmail.isSome = true ∧
    cexEntity.userEmail.isSome = true ∧
    decodedEmail cexEdge = some (some "user@acme.io") ∧
    decodedEmail cexEdge ≠ some cexEntity.orgEmail := by
  refine ⟨rfl, rfl, rfl, by decide, by decide⟩

/-- Claim C8: `flush` is a total function (it never fails) and always
yields the initial state: empty cache, absent cursor, has-next-page true;
hence the next lookup restarts pagination from the beginning, running the
loop from the initial state whatever the login or cache option. -/
theorem flush_resets (st : SponsorsState) :
    flush st = initState ∧
    (flush st).cached = [] ∧
    (flush st).cursor = none ∧
    (flush st).hasNextPage = true ∧
    ∀ login cacheOpt pages,
      find login cacheOpt (flush st) pages = findLoop login initState pages := by
  refine ⟨rfl, rfl, rfl, rfl, fun login cacheOpt pages => ?_⟩
  exact find_of_cache_miss login cacheOpt initState pages rfl

/-- Claim C9: the cache-key invariant — every login key present in the
cache maps to a record whose sponsor login is that key — holds for the
initial state and is preserved by `getInfo`, `isSponsor` and `flush`. -/
theorem cache_key_invariant (login : String) (cacheOpt : Bool)
    (st : SponsorsState) (pages : List Page) (h : CacheOk st.cached) :
    CacheOk initState.cached ∧
    CacheOk ((getInfo login cacheOpt st pages).2.1).cached ∧
    CacheOk ((isSponsor login cacheOpt st pages).2.1).cached ∧
    CacheOk (flush st).cached := by
  refine ⟨cacheOk_nil, ?_, ?_, cacheOk_nil⟩
  · exact cacheOk_find login cacheOpt st pages h
  · exact cacheOk_find login cacheOpt st pages h

/-- Witness for C9: the invariant holds for the state reached by looking
jure up on the demo source from the initial state. -/
theorem cache_key_invariant_witness :
    CacheOk ((getInfo "jure" true initState demoPages).2.1).cached :=
  (cache_key_invariant "jure" true initState demoPages cacheOk_nil).2.1

/-- Claim C10: once the has-next-page flag is false, any `getInfo` call
not satisfied from the cache — caching disabled, or the login not cached —
returns none immediately with zero transport calls and an unchanged state,
even when the source contains the login; `flush` resets the flag to true.
-/
theorem exhausted_state_returns_none (login : String) (cacheOpt : Bool)
    (st : SponsorsState) (pages : List Page)
    (h1 : st.hasNextPage = false)
    (h2 : cacheOpt = false ∨ st.cached.lookup login = none) :
    getInfo login cacheOpt st pages = (none, st, 0) ∧
    (flush st).hasNextPage = true := by
  refine ⟨?_, rfl⟩
  rcases h2 with h2 | h2
  · subst h2
    rw [getInfo, find_of_cache_disabled login st pages,
      findLoop_of_not_hasNextPage login st pages h1]
  · rw [getInfo, find_of_cache_miss login cacheOpt st pages h2,
      findLoop_of_not_hasNextPage login st pages h1]

/-- Witness for C10: in the exhausted demo state, looking alice up returns
none with zero transport calls although the demo source contains alice. -/
theorem exhausted_state_returns_none_witness :
    getInfo "alice" true demoState demoPages = (none, demoState, 0) ∧
    (flush demoState).hasNextPage = true :=
  exhausted_state_returns_none "alice" true demoState demoPages rfl
    (Or.inr (by decide))

end Sponsorsme
